import Mathlib

/-!
Verification development for the automation dispatch scheduler implemented in
`build/status-server.py`: idle detection (`is_claude_idle`), text injection
(`send_to_tmux`), the heartbeat poller (`run_pnyx_tick`), and the GitHub
issue-queue poller (`check_github_issues`) with its dedup and backoff state.

Python strings are modelled as Lean `String` (a structure over `List Char`),
machine timestamps as `Nat` clock readings, and each externally observable
effect (tmux subprocess calls, tracker queries, readiness capture) as explicit
input data or trace events.  All definitions are executable and structurally
recursive so that concrete runs reduce by `rfl`/`decide`.
-/

namespace StatusServer

/-- Characters treated as whitespace by Python's `str.strip()` (ASCII part). -/
def isPySpace (c : Char) : Bool :=
  c == ' ' || c == '\t' || c == '\n' || c == '\r' || c == '\x0b' || c == '\x0c'

/-- Model of Python `s.strip()` on the underlying character list. -/
def stripChars (cs : List Char) : List Char :=
  ((cs.dropWhile isPySpace).reverse.dropWhile isPySpace).reverse

/-- Model of Python `s.strip()`. -/
def pyStrip (s : String) : String :=
  String.mk (stripChars s.data)

/-- Model of Python `s.split(c)`: split a character list at every occurrence of
`c`, keeping empty segments (so `splitChar c cs` is never empty). -/
def splitChar (c : Char) : List Char → List (List Char)
  | [] => [[]]
  | a :: rest =>
    let r := splitChar c rest
    if a == c then [] :: r
    else
      match r with
      | [] => [[a]]
      | g :: gs => (a :: g) :: gs

/-- Python `xs[-n:]`: the last `n` elements of a list (all of them if shorter). -/
def lastN (n : Nat) (xs : List α) : List α :=
  xs.drop (xs.length - n)

/-- The idle-prompt glyph Claude Code shows when waiting for input. -/
def idleGlyph : Char := '❯'

/-- Outcome of `tmux capture-pane`: an exception, or a completed run with its
returncode and captured stdout. -/
inductive CaptureResult where
  | err
  | run (returncode : Int) (stdout : String)
deriving DecidableEq

/-- Embedding of `is_claude_idle` (status-server.py lines 181-221): fail closed
on exception, non-zero exit or blank capture; otherwise look at the last 8
non-blank lines for a line whose stripped form is the idle glyph (the source
also compares against the glyph followed by one space, kept here verbatim). -/
def is_claude_idle (capture : CaptureResult) : Bool :=
  match capture with
  | .err => false
  | .run rc content =>
    if rc != 0 then false
    else if (stripChars content.data).isEmpty then false
    else
      let lines := (splitChar '\n' content.data).filter (fun l => !(stripChars l).isEmpty)
      if lines.isEmpty then false
      else
        (lastN 8 lines).any (fun line =>
          let stripped := stripChars line
          stripped == [idleGlyph] || stripped == [idleGlyph, ' '])

/-- Modelled from the spec claim wording for C6: idle iff one of the last 8
non-blank captured lines is, verbatim, the idle glyph with at most one trailing
space (no whitespace stripping of the line). -/
def claimIdleCheck (capture : CaptureResult) : Bool :=
  match capture with
  | .err => false
  | .run rc content =>
    rc == 0 &&
      (lastN 8 ((splitChar '\n' content.data).filter (fun l => !(stripChars l).isEmpty))).any
        (fun line => line == [idleGlyph] || line == [idleGlyph, ' '])

/-- Last state the web UI reported for its prompt textbox
(`prompt_textbox_state`): whether it holds text, and when that was reported
(`none` when no report was ever received). -/
structure TextboxState where
  has_text : Bool
  last_updated : Option Nat
deriving DecidableEq

/-- Embedding of `is_prompt_textbox_empty` (lines 224-234): with no report, or a
report older than 30 seconds, assume empty; otherwise empty iff no text. -/
def is_prompt_textbox_empty (tb : TextboxState) (now : Nat) : Bool :=
  match tb.last_updated with
  | none => true
  | some t => if now - t > 30 then true else !tb.has_text

/-- Readiness snapshot returned by `get_claude_state` (lines 237-245). -/
structure ClaudeState where
  idle : Bool
  prompt_empty : Bool
deriving DecidableEq

/-- Embedding of `get_claude_state`: combine the tmux idle capture with the
textbox freshness check. -/
def get_claude_state (capture : CaptureResult) (tb : TextboxState) (now : Nat) : ClaudeState :=
  { idle := is_claude_idle capture, prompt_empty := is_prompt_textbox_empty tb now }

/-- Outcome of one `subprocess.run` call inside `send_to_tmux`: exit code 0,
non-zero exit, or a raised exception (timeout and the like). -/
inductive StepOutcome where
  | ok
  | fail
  | exn
deriving DecidableEq

/-- The outcomes the five tmux subprocess calls of `send_to_tmux` would have if
executed, in source order. -/
structure TmuxEnv where
  interrupt_step : StepOutcome
  clear_step : StepOutcome
  load_step : StepOutcome
  paste_step : StepOutcome
  submit_step : StepOutcome
deriving DecidableEq

/-- Observable steps `send_to_tmux` performs, in source order: the C-c
interrupt, the C-u line clear, writing the temp file, `tmux load-buffer`,
deleting the temp file, `tmux paste-buffer`, and the Enter keystroke. -/
inductive TmuxStep where
  | interrupt
  | clearLine
  | writeTemp
  | loadBuffer
  | unlinkTemp
  | pasteBuffer
  | submitEnter
deriving DecidableEq

/-- Result of a `send_to_tmux` call: the boolean the function returns, plus the
trace of steps it executed. -/
structure TmuxRun where
  success : Bool
  steps : List TmuxStep
deriving DecidableEq

/-- Embedding of `send_to_tmux` (lines 1182-1250).  The returncodes of the C-c
and C-u sends are not inspected by the source, so only an exception stops the
function there; after `load-buffer` the temp file is unlinked before the exit
code is checked; a non-zero exit of `load-buffer` or `paste-buffer` returns
`False`; a non-zero exit of the Enter send is logged but `True` is still
returned.  The `except` handler unlinks the temp file when it exists, so every
path that created it also deletes it. -/
def send_to_tmux (env : TmuxEnv) (auto_submit : Bool) : TmuxRun :=
  if env.interrupt_step == .exn then
    { success := false, steps := [.interrupt] }
  else if env.clear_step == .exn then
    { success := false, steps := [.interrupt, .clearLine] }
  else
    if env.load_step == .exn then
      { success := false, steps := [.interrupt, .clearLine, .writeTemp, .loadBuffer, .unlinkTemp] }
    else if env.load_step == .fail then
      { success := false, steps := [.interrupt, .clearLine, .writeTemp, .loadBuffer, .unlinkTemp] }
    else if env.paste_step == .exn then
      { success := false,
        steps := [.interrupt, .clearLine, .writeTemp, .loadBuffer, .unlinkTemp, .pasteBuffer] }
    else if env.paste_step == .fail then
      { success := false,
        steps := [.interrupt, .clearLine, .writeTemp, .loadBuffer, .unlinkTemp, .pasteBuffer] }
    else if auto_submit then
      if env.submit_step == .exn then
        { success := false,
          steps := [.interrupt, .clearLine, .writeTemp, .loadBuffer, .unlinkTemp, .pasteBuffer,
            .submitEnter] }
      else
        { success := true,
          steps := [.interrupt, .clearLine, .writeTemp, .loadBuffer, .unlinkTemp, .pasteBuffer,
            .submitEnter] }
    else
      { success := true,
        steps := [.interrupt, .clearLine, .writeTemp, .loadBuffer, .unlinkTemp, .pasteBuffer] }

/-- A tmux environment in which every subprocess call succeeds. -/
def envAllOk : TmuxEnv := ⟨.ok, .ok, .ok, .ok, .ok⟩

/-- A textbox state with no report ever received (prompt treated as empty). -/
def tbNone : TextboxState := ⟨false, none⟩

/-- Pnyx API credentials as read by `get_pnyx_credentials`. -/
structure Creds where
  api_key : String
  api_url : String
deriving DecidableEq

/-- Result dictionary of one heartbeat tick (`run_pnyx_tick`); absent dict keys
are the field defaults. -/
structure PnyxResult where
  sent : Bool := false
  skipped : Bool := false
  reason : Option String := none
  error : Option String := none
deriving DecidableEq

/-- Externally visible actions of a heartbeat tick: evaluating readiness, and
calling the injector. -/
inductive PnyxAction where
  | readReadiness
  | inject
deriving DecidableEq

/-- Embedding of `run_pnyx_tick` (lines 276-330): bail out before readiness when
no credentials are configured; skip when busy or when the textbox holds text;
otherwise inject the fixed `/pnyx` command with auto-submit. -/
def run_pnyx_tick (creds : Option Creds) (capture : CaptureResult) (tb : TextboxState)
    (now : Nat) (injectEnv : TmuxEnv) : PnyxResult × List PnyxAction :=
  match creds with
  | none => ({ sent := false, error := some "No Pnyx credentials configured" }, [])
  | some _ =>
    let state := get_claude_state capture tb now
    if !state.idle then
      ({ sent := false, skipped := true, reason := some "Claude is busy" }, [.readReadiness])
    else if !state.prompt_empty then
      ({ sent := false, skipped := true, reason := some "Prompt textbox has text" },
       [.readReadiness])
    else
      let success := (send_to_tmux injectEnv true).success
      ({ sent := success, skipped := false,
         error := if success then none else some "Failed to send prompt to tmux" },
       [.readReadiness, .inject])

/-- Decimal digit to character. -/
def digitChar : Nat → Char
  | 0 => '0'
  | 1 => '1'
  | 2 => '2'
  | 3 => '3'
  | 4 => '4'
  | 5 => '5'
  | 6 => '6'
  | 7 => '7'
  | 8 => '8'
  | _ => '9'

/-- Fuel-driven decimal rendering (fuel bounds the digit count). -/
def natDigits : Nat → Nat → List Char
  | 0, _ => []
  | fuel + 1, n =>
    if n < 10 then [digitChar n]
    else natDigits fuel (n / 10) ++ [digitChar (n % 10)]

/-- Decimal rendering of a natural number, as Python `str(n)`. -/
def natToString (n : Nat) : String :=
  String.mk (natDigits (n + 1) n)

/-- Python `'; '.join(errors)`. -/
def joinSemicolon : List String → String
  | [] => ""
  | [e] => e
  | e :: rest => e ++ "; " ++ joinSemicolon rest

/-- Python `<` on strings: lexicographic comparison by code point, a proper
prefix comparing smaller. -/
def charListLt : List Char → List Char → Bool
  | [], [] => false
  | [], _ :: _ => true
  | _ :: _, [] => false
  | a :: as, b :: bs => a.toNat < b.toNat || (a.toNat == b.toNat && charListLt as bs)

/-- Python `<` on strings. -/
def pyStrLt (a b : String) : Bool :=
  charListLt a.data b.data

/-- One open issue as returned by `gh search issues --json
repository,number,title,body,labels,updatedAt`.  `labels` holds the label
names; `updatedAt` is the raw timestamp string (empty when the field was
absent); `repo` is `repository.nameWithOwner` (empty when absent, in which case
the source skips the issue). -/
structure Issue where
  num : Nat
  labels : List String
  updatedAt : String
  repo : String
deriving DecidableEq

/-- The `"owner/repo#number"` key the monitor uses for an issue. -/
def issueKey (i : Issue) : String :=
  i.repo ++ "#" ++ natToString i.num

/-- The label-suffix to skill-command routing table `LABEL_SKILL_MAP`
(lines 467-472). -/
def LABEL_SKILL_MAP : List (String × String) :=
  [("build", "/scrum"), ("design", "/design"), ("plan", "/plan"), ("research", "/dd")]

/-- Lookup in a string-keyed association list (Python `dict.get`). -/
def strLookup : List (String × String) → String → Option String
  | [], _ => none
  | (k, v) :: rest, key => if k == key then some v else strLookup rest key

/-- Rejoin split groups with colons (Python keeps the remainder intact when
`maxsplit=1`). -/
def joinColonGroups : List (List Char) → List Char
  | [] => []
  | [g] => g
  | g :: gs => g ++ ':' :: joinColonGroups gs

/-- Python `label.split(':', 1)[1]` guarded by `':' in label`: everything after
the first colon, or `none` when there is no colon. -/
def splitAfterColon (label : String) : Option String :=
  match splitChar ':' label.data with
  | [] => none
  | [_] => none
  | _ :: g :: gs => some (String.mk (joinColonGroups (g :: gs)))

/-- Embedding of the label loop in `_get_issue_task_type` (lines 475-483): the
first label suffix found in `LABEL_SKILL_MAP` wins; labels without a colon or
with an unknown suffix are passed over. -/
def taskTypeOfLabels : List String → Option String
  | [] => none
  | l :: rest =>
    match splitAfterColon l with
    | some t => if (strLookup LABEL_SKILL_MAP t).isSome then some t else taskTypeOfLabels rest
    | none => taskTypeOfLabels rest

/-- Embedding of `_get_issue_task_type`. -/
def issueTaskType (i : Issue) : Option String :=
  taskTypeOfLabels i.labels

/-- One record of `gh_monitor_state['processed_issues']`: the timestamp the
dispatch happened at, and the issue's `updatedAt` at that time (`none` models a
record whose dict lacks the `updated_at` key, the shape the legacy-list
migration produces). -/
structure ProcessedRecord where
  processed_at : Nat
  updated_at : Option String
deriving DecidableEq

/-- The `processed_issues` dict: insertion-ordered map from issue key. -/
abbrev ProcessedMap := List (String × ProcessedRecord)

/-- Lookup in the processed map (Python `key in processed` / `processed[key]`). -/
def pmLookup : ProcessedMap → String → Option ProcessedRecord
  | [], _ => none
  | (k, v) :: rest, key => if k == key then some v else pmLookup rest key

/-- Python dict assignment `processed[key] = value`: replace in place when the
key exists, append otherwise. -/
def dictInsert : ProcessedMap → String → ProcessedRecord → ProcessedMap
  | [], key, v => [(key, v)]
  | (k, w) :: rest, key, v =>
    if k == key then (key, v) :: rest else (k, w) :: dictInsert rest key v

/-- Embedding of the legacy-state migration in `_load_gh_monitor_state`
(lines 141-155): a bare list of keys becomes a dict whose records carry only
`processed_at` (the file's `saved_at`), with no `updated_at` key. -/
def migrateProcessed (keys : List String) (savedAt : Nat) : ProcessedMap :=
  keys.foldl (fun m k => dictInsert m k { processed_at := savedAt, updated_at := none }) []

/-- Embedding of the dedup filter test (lines 654-667): an issue is new when its
key is unrecorded, or when both its `updatedAt` and the stored `updated_at` are
non-empty strings and the former is strictly greater. -/
def issueIsNew (processed : ProcessedMap) (i : Issue) : Bool :=
  match pmLookup processed (issueKey i) with
  | none => true
  | some rec =>
    let issue_updated := i.updatedAt
    let last_updated := rec.updated_at.getD ""
    !issue_updated.data.isEmpty && !last_updated.data.isEmpty
      && pyStrLt last_updated issue_updated

/-- The `new_issues` list built by the dedup loop, in presentation order. -/
def filterNewIssues (processed : ProcessedMap) (issues : List Issue) : List Issue :=
  issues.filter (issueIsNew processed)

/-- Outcome of one `gh search issues` call for a label: a failure message
(non-zero exit, timeout, exception, bad JSON) or a parsed issue list. -/
inductive QueryOutcome where
  | fail (msg : String)
  | ok (issues : List Issue)
deriving DecidableEq

/-- Key-presence test on the `all_issues` accumulation map. -/
def hasKey (m : List (String × Issue)) (k : String) : Bool :=
  m.any (fun p => p.1 == k)

/-- Inner loop of the fan-out query (lines 610-617): skip issues with no
repository name, first write wins per key. -/
def addQueryIssues (m : List (String × Issue)) : List Issue → List (String × Issue)
  | [] => m
  | i :: rest =>
    if i.repo == "" then addQueryIssues m rest
    else if hasKey m (issueKey i) then addQueryIssues m rest
    else addQueryIssues (m ++ [(issueKey i, i)]) rest

/-- Label fan-out accumulator (lines 594-622): collect `all_issues` and the
per-label error strings in label order. -/
def ghQueryAux (acc : List (String × Issue)) (errs : List String) :
    List (String × QueryOutcome) → List (String × Issue) × List String
  | [] => (acc, errs)
  | (label, .fail msg) :: rest => ghQueryAux acc (errs ++ [label ++ ": " ++ msg]) rest
  | (_, .ok issues) :: rest => ghQueryAux (addQueryIssues acc issues) errs rest

/-- The fan-out query phase of `check_github_issues`. -/
def ghQueryPhase (queries : List (String × QueryOutcome)) :
    List (String × Issue) × List String :=
  ghQueryAux [] [] queries

/-- The monitor's mutable dispatch state (`gh_monitor_state` fields the poller
reads and writes). -/
structure GhState where
  processed_issues : ProcessedMap
  backoff_until : Option Nat
  backoff_count : Nat
deriving DecidableEq

/-- Result dictionary of one issue-queue tick; absent dict keys are the field
defaults. -/
structure GhResult where
  sent : Bool := false
  skipped : Bool := false
  reason : Option String := none
  error : Option String := none
  backoff : Bool := false
  backoff_seconds : Option Nat := none
  issues_found : Nat := 0
  new_issues : Nat := 0
  mode : Option String := none
deriving DecidableEq

/-- Externally visible actions of an issue-queue tick, in order: one tracker
query per label, the readiness evaluation, and the injector calls. -/
inductive GhAction where
  | query (label : String)
  | readReadiness
  | injectBatch (prompt : String)
  | injectSingle (key : String)
deriving DecidableEq

/-- Whether an action is an injector call. -/
def ghIsInject : GhAction → Bool
  | .injectBatch _ => true
  | .injectSingle _ => true
  | _ => false

/-- The batch marking loop (lines 725-730): each build issue is stored under its
key with its own `updatedAt` and a `processed_at` from a fresh `datetime.now()`
read; `dt j` is the value of the j-th read of the clock during the loop. -/
def markBuildAux (m : ProcessedMap) (dt : Nat → Nat) (j : Nat) : List Issue → ProcessedMap
  | [] => m
  | i :: rest =>
    markBuildAux (dictInsert m (issueKey i) ⟨dt j, some i.updatedAt⟩) dt (j + 1) rest

/-- Mark every build issue processed, clock reads starting at index 0. -/
def markBuildProcessed (m : ProcessedMap) (dt : Nat → Nat) (issues : List Issue) : ProcessedMap :=
  markBuildAux m dt 0 issues

/-- The initial backoff-window check (lines 574-589): inside the window the tick
is skipped with the remaining seconds; an expired window is cleared. -/
def ghBackoffGate (st : GhState) (now : Nat) : Option GhResult × GhState :=
  match st.backoff_until with
  | some u =>
    if now < u then
      (some { sent := false, skipped := true,
              reason := some ("Backing off (" ++ natToString (u - now) ++ "s remaining)"),
              backoff := true }, st)
    else (none, { st with backoff_until := none })
  | none => (none, st)

/-- The dispatch phase (lines 703-775), reached once the readiness gate passed:
build issues trigger one `/scrum` injection and, on success, a bulk marking;
otherwise the first single issue is injected and marked on success. -/
def ghDispatch (st : GhState) (dt : Nat → Nat) (injectEnv : TmuxEnv)
    (issuesFound : Nat) (new_issues : List Issue) : GhResult × GhState × List GhAction :=
  let build_issues := new_issues.filter (fun i => issueTaskType i == some "build")
  let single_issues := new_issues.filter (fun i => !(issueTaskType i == some "build"))
  if !build_issues.isEmpty then
    let success := (send_to_tmux injectEnv true).success
    let st2 :=
      if success then
        { st with processed_issues := markBuildProcessed st.processed_issues dt build_issues }
      else st
    ({ sent := success, issues_found := issuesFound, new_issues := new_issues.length,
       mode := some "scrum" }, st2, [GhAction.injectBatch "/scrum"])
  else
    match single_issues with
    | [] =>
      -- Unreachable: with no build issues, `single_issues` equals the
      -- non-empty `new_issues` (Python would raise on `single_issues[0]`).
      ({ sent := false, issues_found := issuesFound, new_issues := new_issues.length }, st, [])
    | issue :: _ =>
      let success := (send_to_tmux injectEnv true).success
      let st2 :=
        if success then
          { st with processed_issues :=
              dictInsert st.processed_issues (issueKey issue) ⟨dt 0, some issue.updatedAt⟩ }
        else st
      ({ sent := success, issues_found := issuesFound, new_issues := new_issues.length,
         mode := some "skill" }, st2, [GhAction.injectSingle (issueKey issue)])

/-- The body of `check_github_issues` after the backoff gate (lines 591-775):
fan-out query, all-failed backoff escalation, backoff reset, dedup filter,
nothing-new skip, readiness gate, then dispatch. -/
def ghTickMain (st : GhState) (now : Nat) (dt : Nat → Nat)
    (queries : List (String × QueryOutcome))
    (capture : CaptureResult) (tb : TextboxState) (injectEnv : TmuxEnv) :
    GhResult × GhState × List GhAction :=
  let qr := ghQueryPhase queries
  let all_issues := qr.1
  let errors := qr.2
  let qActs := queries.map (fun q => GhAction.query q.1)
  if !errors.isEmpty && all_issues.isEmpty then
    let count1 := st.backoff_count + 1
    let secs := min 1800 (30 * 2 ^ count1)
    ({ sent := false, error := some (joinSemicolon errors), issues_found := 0,
       backoff_seconds := some secs },
     { st with backoff_count := count1, backoff_until := some (now + secs) }, qActs)
  else
    let st1 := { st with backoff_count := 0 }
    let issues := all_issues.map (fun p => p.2)
    let new_issues := filterNewIssues st1.processed_issues issues
    if new_issues.isEmpty then
      ({ sent := false, skipped := true, issues_found := issues.length, new_issues := 0,
         reason := some (if issues.isEmpty then "No new issues"
           else "All issues already processed") }, st1, qActs)
    else
      let state := get_claude_state capture tb now
      if !state.idle then
        ({ sent := false, skipped := true, reason := some "Claude is busy",
           issues_found := issues.length, new_issues := new_issues.length }, st1,
         qActs ++ [GhAction.readReadiness])
      else if !state.prompt_empty then
        ({ sent := false, skipped := true, reason := some "Prompt textbox has text",
           issues_found := issues.length, new_issues := new_issues.length }, st1,
         qActs ++ [GhAction.readReadiness])
      else
        let d := ghDispatch st1 dt injectEnv issues.length new_issues
        (d.1, d.2.1, qActs ++ GhAction.readReadiness :: d.2.2)

/-- Embedding of a full `check_github_issues` tick (lines 566-775), returning
the result dictionary, the updated monitor state, and the action trace. -/
def check_github_issues (st : GhState) (now : Nat) (dt : Nat → Nat)
    (queries : List (String × QueryOutcome))
    (capture : CaptureResult) (tb : TextboxState) (injectEnv : TmuxEnv) :
    GhResult × GhState × List GhAction :=
  match ghBackoffGate st now with
  | (some r, st') => (r, st', [])
  | (none, st') => ghTickMain st' now dt queries capture tb injectEnv

/-- The default label set `GH_MONITOR_LABELS` (line 460). -/
def GH_MONITOR_LABELS : List String :=
  ["enkai:research", "enkai:design", "enkai:plan", "enkai:build"]

/-- A query round in which every label's `gh search issues` call times out. -/
def allFailQueries : List (String × QueryOutcome) :=
  GH_MONITOR_LABELS.map (fun l => (l, QueryOutcome.fail "timed out"))

/-- The tick time used by the consecutive-failure runner: exactly when the
previous backoff window expires (0 when no window is set). -/
def tickNow (st : GhState) : Nat :=
  st.backoff_until.getD 0

/-- Run `n` consecutive issue-queue ticks in which every label query fails, each
tick fired the moment the previous backoff window expires. -/
def runAllFail (st : GhState) : Nat → GhState
  | 0 => st
  | n + 1 =>
    let st1 := runAllFail st n
    (check_github_issues st1 (tickNow st1) (fun j => j) allFailQueries CaptureResult.err
      tbNone envAllOk).2.1

/-- Events a thread can perform in the injection concurrency model: a tmux
injection step, or acquiring/releasing one of the module's `threading.Lock`
objects (numbered; `send_to_tmux` itself uses none of them). -/
inductive InjEvent where
  | step (t : TmuxStep)
  | acquire (lock : Nat)
  | release (lock : Nat)
deriving DecidableEq

/-- The event sequence a `send_to_tmux(text, session, auto_submit=True)` call
performs when every subprocess call succeeds, taken from the embedded
`send_to_tmux`: the source acquires no lock before, during, or around the call
(none of the callers at lines 314, 710, 745, 1449 or 1789 holds one), so the
sequence contains only the seven tmux steps and no acquire/release events. -/
def sendToTmuxEvents : List InjEvent :=
  (send_to_tmux envAllOk true).steps.map InjEvent.step

/-- A trace of two concurrent callers: each entry is a thread id (1 or 2) and
the event that thread performs. -/
abbrev InjTrace := List (Nat × InjEvent)

/-- The subsequence of events performed by one thread. -/
def projThread (t : Nat) (tr : InjTrace) : List InjEvent :=
  (tr.filter (fun e => e.1 == t)).map (fun e => e.2)

/-- A trace is an interleaving of two per-thread programs when each thread's
projection is exactly its program and no other thread appears. -/
def isInterleaving (p1 p2 : List InjEvent) (tr : InjTrace) : Bool :=
  projThread 1 tr == p1 && projThread 2 tr == p2
    && tr.all (fun e => e.1 == 1 || e.1 == 2)

/-- One step of the lock semantics: `held` maps lock ids to holding threads; an
acquire of a held lock blocks (the trace is not admissible), a release must be
by the holder, plain steps are always enabled. -/
def lockStep (held : List (Nat × Nat)) : Nat × InjEvent → Option (List (Nat × Nat))
  | (t, .acquire l) =>
    if held.any (fun h => h.1 == l) then none else some ((l, t) :: held)
  | (t, .release l) =>
    if held.any (fun h => h.1 == l && h.2 == t) then
      some (held.filter (fun h => !(h.1 == l)))
    else none
  | (_, .step _) => some held

/-- Whether a trace is admitted by the lock semantics starting from no locks
held: mutual exclusion can only forbid traces through acquire events. -/
def lockAdmissibleAux (held : List (Nat × Nat)) : InjTrace → Bool
  | [] => true
  | e :: rest =>
    match lockStep held e with
    | none => false
    | some held' => lockAdmissibleAux held' rest

/-- Admissibility from the initial (lock-free) state. -/
def lockAdmissible (tr : InjTrace) : Bool :=
  lockAdmissibleAux [] tr

/-- Collapse consecutive repeats of thread ids, to detect interleaving: a trace
keeps each caller's steps contiguous iff the collapsed id sequence has no
revisits (for two threads: length at most 2). -/
def collapseRuns : List Nat → List Nat
  | [] => []
  | [a] => [a]
  | a :: b :: rest =>
    if a == b then collapseRuns (b :: rest) else a :: collapseRuns (b :: rest)

/-- A trace that strictly alternates the two callers' injection steps, never
letting either finish its four-phase sequence uninterrupted. -/
def interleavedTrace : InjTrace :=
  (send_to_tmux envAllOk true).steps.flatMap
    (fun s => [(1, InjEvent.step s), (2, InjEvent.step s)])

/-! Helper lemmas. -/

theorem dropWhile_head_false (p : Char → Bool) :
    ∀ (cs : List Char) (x : Char) (xs : List Char), cs.dropWhile p = x :: xs → p x = false := by
  intro cs
  induction cs with
  | nil => intro x xs h; simp [List.dropWhile] at h
  | cons a rest ih =>
    intro x xs h
    by_cases ha : p a
    · rw [List.dropWhile_cons_of_pos ha] at h
      exact ih x xs h
    · rw [List.dropWhile_cons_of_neg ha] at h
      cases h
      exact Bool.of_not_eq_true ha

theorem stripChars_ne_glyph_space (l : List Char) :
    (stripChars l == [idleGlyph, ' ']) = false := by
  rw [beq_eq_false_iff_ne]
  intro h
  unfold stripChars at h
  rw [List.reverse_eq_iff] at h
  have := dropWhile_head_false isPySpace (l.dropWhile isPySpace).reverse ' ' [idleGlyph] (by
    simpa using h)
  simp [isPySpace] at this

theorem any_eq_of_fun_eq {α : Type} (f g : α → Bool) (h : ∀ a, f a = g a) (L : List α) :
    L.any f = L.any g := by
  have : f = g := funext h
  rw [this]

theorem mem_splitChar {c : Char} :
    ∀ (cs l : List Char), l ∈ splitChar c cs → ∀ x ∈ l, x ∈ cs := by
  intro cs
  induction cs with
  | nil =>
    intro l hl x hx
    simp [splitChar] at hl
    subst hl
    simp at hx
  | cons a rest ih =>
    intro l hl x hx
    unfold splitChar at hl
    by_cases hac : a == c
    · simp only [hac, if_pos] at hl
      rcases List.mem_cons.mp hl with h | h
      · subst h; simp at hx
      · exact List.mem_cons_of_mem a (ih l h x hx)
    · simp only [hac, if_neg, Bool.false_eq_true, not_false_iff, ite_false] at hl
      rcases hr : splitChar c rest with _ | ⟨g, gs⟩
      · rw [hr] at hl
        simp at hl
        subst hl
        simp at hx
        simp [hx]
      · rw [hr] at hl
        rcases List.mem_cons.mp hl with h | h
        · subst h
          rcases List.mem_cons.mp hx with h | h
          · simp [h]
          · exact List.mem_cons_of_mem a (ih g (by rw [hr]; exact List.mem_cons_self g gs) x h)
        · exact List.mem_cons_of_mem a (ih l (by rw [hr]; exact List.mem_cons_of_mem g h) x hx)

theorem stripChars_eq_nil_of_all (l : List Char) (h : ∀ x ∈ l, isPySpace x = true) :
    stripChars l = [] := by
  unfold stripChars
  have h1 : l.dropWhile isPySpace = [] := List.dropWhile_eq_nil_iff.mpr h
  rw [h1]
  simp

theorem all_of_stripChars_nil (cs : List Char) (h : (stripChars cs).isEmpty = true) :
    ∀ x ∈ cs, isPySpace x = true := by
  unfold stripChars at h
  rw [List.isEmpty_iff] at h
  have h2 : (cs.dropWhile isPySpace).reverse.dropWhile isPySpace = [] := by
    simpa using congrArg List.reverse h
  have h3 : ∀ x ∈ (cs.dropWhile isPySpace).reverse, isPySpace x = true :=
    List.dropWhile_eq_nil_iff.mp h2
  intro x hx
  rcases List.mem_append.mp ((List.takeWhile_append_dropWhile (p := isPySpace) (l := cs)) ▸ hx)
    with h4 | h4
  · exact List.mem_takeWhile_imp h4
  · exact h3 x (List.mem_reverse.mpr h4)

/-! C6: idle detection. -/

/-- C6 counterexample: a capture whose only line is the idle glyph followed by
TWO trailing spaces.  `is_claude_idle` strips the line and reports idle, but no
line of the capture is exactly the glyph with at most one trailing space, so
the claimed if-and-only-if characterization fails at this input. -/
theorem is_claude_idle_two_trailing_spaces_cex :
    is_claude_idle (.run 0 (String.mk [idleGlyph, ' ', ' '])) = true
    ∧ claimIdleCheck (.run 0 (String.mk [idleGlyph, ' ', ' '])) = false := by
  decide

/-- C6 amended: `is_claude_idle` returns true iff the capture ran, exited 0 and
one of the last 8 non-blank lines equals the idle glyph after stripping leading
and trailing whitespace (the source's comparison against the glyph plus one
space is unreachable, because the compared line is already stripped); it
returns false on a capture exception, and the non-zero-exit and blank-capture
cases are covered by the iff's right-hand side being false there. -/
theorem is_claude_idle_characterization :
    (∀ (rc : Int) (content : String),
      is_claude_idle (.run rc content) = true
        ↔ rc = 0 ∧
            ((lastN 8 ((splitChar '\n' content.data).filter
                (fun l => !(stripChars l).isEmpty))).any
              (fun l => stripChars l == [idleGlyph])) = true)
    ∧ is_claude_idle .err = false := by
  constructor
  · intro rc content
    unfold is_claude_idle
    by_cases hrc : rc = 0
    · subst hrc
      simp only [bne_self_eq_false, Bool.false_eq_true, if_false]
      by_cases hblank : (stripChars content.data).isEmpty
      · have hfilter :
            (splitChar '\n' content.data).filter (fun l => !(stripChars l).isEmpty) = [] := by
          rw [List.filter_eq_nil_iff]
          intro l hl
          have hall : ∀ x ∈ l, isPySpace x = true := fun x hx =>
            all_of_stripChars_nil content.data hblank x (mem_splitChar content.data l hl x hx)
          simp [stripChars_eq_nil_of_all l hall]
        simp [hblank, hfilter, lastN]
      · simp only [hblank, Bool.false_eq_true, if_false]
        by_cases hlines :
            ((splitChar '\n' content.data).filter (fun l => !(stripChars l).isEmpty)).isEmpty
        · rw [List.isEmpty_iff] at hlines
          simp [hlines, lastN]
        · simp only [hlines, Bool.false_eq_true, if_false]
          rw [any_eq_of_fun_eq
            (fun line => stripChars line == [idleGlyph] || stripChars line == [idleGlyph, ' '])
            (fun line => stripChars line == [idleGlyph])
            (fun line => by simp [stripChars_ne_glyph_space line])]
          simp
    · have : (rc != 0) = true := by
        simpa using hrc
      simp [this, hrc]
  · rfl

/-! C5: injector error handling and cleanup. -/

/-- C5 counterexample: a non-zero exit of the interrupt (C-c) send does not stop
`send_to_tmux`, and a non-zero exit of the submit (Enter) send is only logged —
both calls still return success, so failure of "any subprocess step" does NOT
return an error. -/
theorem send_to_tmux_ignored_failures_cex :
    (send_to_tmux ⟨.fail, .ok, .ok, .ok, .ok⟩ true).success = true
    ∧ (send_to_tmux ⟨.ok, .ok, .ok, .ok, .fail⟩ true).success = true := by
  decide

set_option maxHeartbeats 2000000 in
/-- C5 amended: `send_to_tmux` returns failure and aborts the remaining steps
when any subprocess call raises an exception or when `load-buffer` or
`paste-buffer` exits non-zero; a non-zero exit of the interrupt or clear-line
send is ignored (execution proceeds exactly as if it had succeeded), a
non-zero exit of the submit keystroke is logged but the call still returns
success, and on every path that creates the temp file the file is deleted. -/
theorem send_to_tmux_abort_and_cleanup (env : TmuxEnv) (auto : Bool) :
    (TmuxStep.writeTemp ∈ (send_to_tmux env auto).steps →
      TmuxStep.unlinkTemp ∈ (send_to_tmux env auto).steps)
    ∧ (env.interrupt_step = .exn →
        (send_to_tmux env auto).success = false
        ∧ (send_to_tmux env auto).steps = [.interrupt])
    ∧ (env.interrupt_step ≠ .exn → env.clear_step = .exn →
        (send_to_tmux env auto).success = false
        ∧ (send_to_tmux env auto).steps = [.interrupt, .clearLine])
    ∧ (env.interrupt_step = .fail →
        send_to_tmux env auto = send_to_tmux { env with interrupt_step := .ok } auto)
    ∧ (env.clear_step = .fail →
        send_to_tmux env auto = send_to_tmux { env with clear_step := .ok } auto)
    ∧ (env.interrupt_step ≠ .exn → env.clear_step ≠ .exn → env.load_step ≠ .ok →
        (send_to_tmux env auto).success = false
        ∧ TmuxStep.pasteBuffer ∉ (send_to_tmux env auto).steps
        ∧ TmuxStep.unlinkTemp ∈ (send_to_tmux env auto).steps)
    ∧ (env.interrupt_step ≠ .exn → env.clear_step ≠ .exn → env.load_step = .ok →
        env.paste_step ≠ .ok →
        (send_to_tmux env auto).success = false
        ∧ TmuxStep.submitEnter ∉ (send_to_tmux env auto).steps)
    ∧ (env.interrupt_step ≠ .exn → env.clear_step ≠ .exn → env.load_step = .ok →
        env.paste_step = .ok → env.submit_step = .fail → auto = true →
        (send_to_tmux env auto).success = true)
    ∧ (env.interrupt_step ≠ .exn → env.clear_step ≠ .exn → env.load_step = .ok →
        env.paste_step = .ok → env.submit_step = .exn → auto = true →
        (send_to_tmux env auto).success = false) := by
  obtain ⟨i, c, l, p, s⟩ := env
  cases i <;> cases c <;> cases l <;> cases p <;> cases s <;> cases auto <;>
    exact ⟨by decide, by decide, by decide, by decide, by decide, by decide, by decide,
      by decide, by decide⟩

/-- C5 witness: a failing `load-buffer` call aborts with failure, skips the
paste, and still removes the temp file. -/
theorem send_to_tmux_abort_and_cleanup_witness :
    (send_to_tmux ⟨.ok, .ok, .fail, .ok, .ok⟩ true).success = false
    ∧ TmuxStep.pasteBuffer ∉ (send_to_tmux ⟨.ok, .ok, .fail, .ok, .ok⟩ true).steps
    ∧ TmuxStep.unlinkTemp ∈ (send_to_tmux ⟨.ok, .ok, .fail, .ok, .ok⟩ true).steps :=
  (send_to_tmux_abort_and_cleanup ⟨.ok, .ok, .fail, .ok, .ok⟩ true).2.2.2.2.2.1
    (by decide) (by decide) (by decide)

/-! C1: injection mutual exclusion. -/

/-- C1 (code bug): `send_to_tmux` and its callers take no lock, so the lock
semantics admits a trace in which two concurrent callers strictly alternate
their injection steps: the trace is an interleaving of two full `send_to_tmux`
event sequences, it is admitted from the lock-free initial state, and its
collapsed thread-id sequence has length 14 (a run in which the second caller
blocked until the first completed would collapse to length at most 2). -/
theorem injection_no_mutex_interleaving :
    isInterleaving sendToTmuxEvents sendToTmuxEvents interleavedTrace = true
    ∧ lockAdmissible interleavedTrace = true
    ∧ (collapseRuns (interleavedTrace.map (fun e => e.1))).length = 14 := by
  decide

/-! C9: heartbeat poller error handling. -/

/-- C9: with no credentials the heartbeat tick returns the not-configured
result and performs no action at all (readiness is never evaluated); with
credentials but a busy session it returns sent-false, skipped-true with the
busy reason and performs no injection. -/
theorem pnyx_not_configured_and_busy :
    ∀ (capture : CaptureResult) (tb : TextboxState) (now : Nat) (injectEnv : TmuxEnv)
      (creds : Creds),
    run_pnyx_tick none capture tb now injectEnv
        = ({ sent := false, error := some "No Pnyx credentials configured" }, [])
    ∧ ((get_claude_state capture tb now).idle = false →
        run_pnyx_tick (some creds) capture tb now injectEnv
          = ({ sent := false, skipped := true, reason := some "Claude is busy" },
             [PnyxAction.readReadiness])) := by
  intro capture tb now injectEnv creds
  constructor
  · rfl
  · intro h
    simp [run_pnyx_tick, h]

/-- C9 witness: a failed capture (busy session) at a concrete tick. -/
theorem pnyx_not_configured_and_busy_witness :
    run_pnyx_tick (some ⟨"key", "url"⟩) CaptureResult.err tbNone 0 envAllOk
      = ({ sent := false, skipped := true, reason := some "Claude is busy" },
         [PnyxAction.readReadiness]) :=
  (pnyx_not_configured_and_busy CaptureResult.err tbNone 0 envAllOk ⟨"key", "url"⟩).2 (by decide)

/-! C3 and C10: dedup filter. -/

theorem charListLt_irrefl : ∀ cs : List Char, charListLt cs cs = false := by
  intro cs
  induction cs with
  | nil => rfl
  | cons a rest ih => simp [charListLt, ih]

theorem charListLt_nil_right (cs : List Char) : charListLt cs [] = false := by
  cases cs <;> rfl

theorem string_eq_empty_iff (s : String) : s = "" ↔ s.data = [] := by
  constructor
  · intro h; subst h; rfl
  · intro h
    cases s
    simp at h
    subst h
    rfl

theorem pmLookup_dictInsert (m : ProcessedMap) (key : String) (v : ProcessedRecord)
    (k : String) :
    pmLookup (dictInsert m key v) k = if key == k then some v else pmLookup m k := by
  induction m with
  | nil => simp [dictInsert, pmLookup]
  | cons p rest ih =>
    obtain ⟨k', w⟩ := p
    by_cases h1 : k' = key
    · subst h1
      by_cases h2 : k' = k <;> simp [dictInsert, pmLookup, h2]
    · by_cases h2 : k' = k
      · subst h2
        have h3 : ¬ key = k' := fun h => h1 h.symm
        simp [dictInsert, pmLookup, h1, h3]
      · simp [dictInsert, pmLookup, h1, h2, ih]

/-- C3 counterexample: a processed record whose stored `updated_at` is the empty
string (as the marking path stores for an item whose tracker data lacked
`updatedAt`).  A re-presented item with a lexicographically strictly newer
`updatedAt` is NOT treated as new, because the source additionally requires the
stored value to be a non-empty string. -/
theorem dedup_empty_stored_cex :
    pyStrLt "" "2025-01-01T00:00:00Z" = true
    ∧ issueIsNew [("repoA#1", ⟨0, some ""⟩)]
        ⟨1, ["enkai:design"], "2025-01-01T00:00:00Z", "repoA"⟩ = false := by
  decide

/-- C3 amended: for a recorded key, re-presenting the identical item (same
`updatedAt` as stored) is filtered out; an item strictly newer than a NON-EMPTY
stored `updated_at` is treated as new, and once the store is advanced to the
new value the same filtering applies to it (so it is new exactly once); with an
empty stored value no update ever re-arms the record. -/
theorem dedup_identical_and_rearm :
    ∀ (processed : ProcessedMap) (i : Issue) (rec : ProcessedRecord),
    pmLookup processed (issueKey i) = some rec →
    ((rec.updated_at.getD "" = i.updatedAt → issueIsNew processed i = false)
      ∧ (rec.updated_at.getD "" ≠ "" →
          pyStrLt (rec.updated_at.getD "") i.updatedAt = true →
          issueIsNew processed i = true)
      ∧ (∀ (t : Nat) (i' : Issue), issueKey i' = issueKey i → i'.updatedAt = i.updatedAt →
          issueIsNew (dictInsert processed (issueKey i) ⟨t, some i.updatedAt⟩) i' = false)) := by
  intro processed i rec hlook
  refine ⟨?_, ?_, ?_⟩
  · intro h
    simp only [issueIsNew, hlook]
    rw [h]
    simp [pyStrLt, charListLt_irrefl]
  · intro hne hlt
    simp only [issueIsNew, hlook]
    have hev : ¬ i.updatedAt.data = [] := by
      intro hnil
      rw [pyStrLt, hnil, charListLt_nil_right] at hlt
      exact Bool.false_ne_true hlt
    have hsv : ¬ (rec.updated_at.getD "").data = [] := fun h =>
      hne ((string_eq_empty_iff _).mpr h)
    simp [hlt, List.isEmpty_iff, hev, hsv]
  · intro t i' hkey hupd
    simp only [issueIsNew, hkey, pmLookup_dictInsert, beq_self_eq_true, if_pos]
    rw [hupd]
    simp [pyStrLt, charListLt_irrefl]

/-- C3 witness: a stored timestamp filters the identical item and re-arms on a
strictly newer one. -/
theorem dedup_identical_and_rearm_witness :
    issueIsNew [("repoA#1", ⟨0, some "t1"⟩)] ⟨1, [], "t1", "repoA"⟩ = false
    ∧ issueIsNew [("repoA#1", ⟨0, some "t1"⟩)] ⟨1, [], "t2", "repoA"⟩ = true :=
  ⟨(dedup_identical_and_rearm [("repoA#1", ⟨0, some "t1"⟩)] ⟨1, [], "t1", "repoA"⟩
      ⟨0, some "t1"⟩ (by decide)).1 (by decide),
   (dedup_identical_and_rearm [("repoA#1", ⟨0, some "t1"⟩)] ⟨1, [], "t2", "repoA"⟩
      ⟨0, some "t1"⟩ (by decide)).2.1 (by decide) (by decide)⟩

theorem migrate_lookup (savedAt : Nat) :
    ∀ (keys : List String) (m : ProcessedMap) (k : String),
    (k ∈ keys →
      pmLookup (keys.foldl (fun m' k' => dictInsert m' k' ⟨savedAt, none⟩) m) k
        = some ⟨savedAt, none⟩)
    ∧ (k ∉ keys →
      pmLookup (keys.foldl (fun m' k' => dictInsert m' k' ⟨savedAt, none⟩) m) k
        = pmLookup m k) := by
  intro keys
  induction keys with
  | nil => intro m k; exact ⟨fun h => absurd h (List.not_mem_nil k), fun _ => rfl⟩
  | cons k0 rest ih =>
    intro m k
    constructor
    · intro hmem
      by_cases hk : k ∈ rest
      · exact (ih (dictInsert m k0 ⟨savedAt, none⟩) k).1 hk
      · have hk0 : k = k0 := by
          rcases List.mem_cons.mp hmem with h | h
          · exact h
          · exact absurd h hk
        subst hk0
        rw [List.foldl_cons, (ih (dictInsert m k ⟨savedAt, none⟩) k).2 hk,
          pmLookup_dictInsert]
        simp
    · intro hmem
      have hk0 : ¬ k = k0 := fun h => hmem (h ▸ List.mem_cons_self k0 rest)
      have hk : k ∉ rest := fun h => hmem (List.mem_cons_of_mem k0 h)
      rw [List.foldl_cons, (ih (dictInsert m k0 ⟨savedAt, none⟩) k).2 hk,
        pmLookup_dictInsert]
      have : ¬ k0 = k := fun h => hk0 h.symm
      simp [this]

/-- C10: a record produced by the legacy bare-list migration stores no
`updated_at`, and the dedup filter then classifies every re-presented item with
that key as already processed, whatever `updatedAt` the tracker reports. -/
theorem migrated_records_never_rearmed :
    ∀ (keys : List String) (savedAt : Nat) (i : Issue),
    issueKey i ∈ keys → issueIsNew (migrateProcessed keys savedAt) i = false := by
  intro keys savedAt i hmem
  have h := (migrate_lookup savedAt keys [] (issueKey i)).1 hmem
  simp only [issueIsNew, migrateProcessed, h]
  simp

/-- C10 witness: a migrated key is not re-armed by a later `updatedAt`. -/
theorem migrated_records_never_rearmed_witness :
    issueIsNew (migrateProcessed ["repoA#1"] 7) ⟨1, [], "2030-01-01", "repoA"⟩ = false :=
  migrated_records_never_rearmed ["repoA#1"] 7 ⟨1, [], "2030-01-01", "repoA"⟩ (by decide)

/-! Issue-queue tick lemmas. -/

theorem mem_qActs_not_inject (queries : List (String × QueryOutcome)) (a : GhAction)
    (h : a ∈ queries.map (fun q => GhAction.query q.1)) : ghIsInject a = false := by
  obtain ⟨q, _, rfl⟩ := List.mem_map.mp h
  rfl

theorem readReadiness_not_mem_qActs (queries : List (String × QueryOutcome)) :
    GhAction.readReadiness ∉ queries.map (fun q => GhAction.query q.1) := by
  intro h
  obtain ⟨q, _, hq⟩ := List.mem_map.mp h
  simp at hq

theorem ghBackoffGate_pass (pi : ProcessedMap) (bu : Option Nat) (bc : Nat) (now : Nat)
    (h : ∀ u, bu = some u → u ≤ now) :
    ghBackoffGate ⟨pi, bu, bc⟩ now = (none, ⟨pi, none, bc⟩) := by
  cases bu with
  | none => rfl
  | some u =>
    have hnl : ¬ now < u := Nat.not_lt.mpr (h u rfl)
    simp [ghBackoffGate, hnl]

theorem ghBackoffGate_processed (st : GhState) (now : Nat) :
    (ghBackoffGate st now).2.processed_issues = st.processed_issues := by
  unfold ghBackoffGate
  cases st.backoff_until with
  | none => rfl
  | some u => by_cases h : now < u <;> simp [h]

theorem ghDispatch_backoff_until (st : GhState) (dt : Nat → Nat) (injectEnv : TmuxEnv)
    (n : Nat) (is : List Issue) :
    (ghDispatch st dt injectEnv n is).2.1.backoff_until = st.backoff_until := by
  simp only [ghDispatch]
  split
  · split <;> rfl
  · split
    · rfl
    · split <;> rfl

theorem ghDispatch_backoff_count (st : GhState) (dt : Nat → Nat) (injectEnv : TmuxEnv)
    (n : Nat) (is : List Issue) :
    (ghDispatch st dt injectEnv n is).2.1.backoff_count = st.backoff_count := by
  simp only [ghDispatch]
  split
  · split <;> rfl
  · split
    · rfl
    · split <;> rfl

/-! C2: backoff trigger condition. -/

/-- C2 counterexample: one label query succeeds (returning zero issues) and the
other errors; the claim says no backoff window is set and the count resets to
0, but the source triggers backoff whenever there is an error and the collected
issue map is empty: the count becomes 1 and a 60-second window is set. -/
theorem backoff_partial_success_cex :
    (check_github_issues ⟨[], none, 0⟩ 100 (fun j => j)
        [("enkai:research", QueryOutcome.ok []), ("enkai:design", QueryOutcome.fail "boom")]
        CaptureResult.err tbNone envAllOk).2.1.backoff_count = 1
    ∧ (check_github_issues ⟨[], none, 0⟩ 100 (fun j => j)
        [("enkai:research", QueryOutcome.ok []), ("enkai:design", QueryOutcome.fail "boom")]
        CaptureResult.err tbNone envAllOk).2.1.backoff_until = some 160 := by
  decide

/-- C2 amended: on a tick that reaches the query phase, backoff is triggered
iff at least one label query errored AND the collected issue map is empty
(every successful query, if any, contributed no usable issue); on every other
such tick the failure count resets to 0 and no backoff window is set.  A tick
with a successful zero-issue label plus a failing label therefore does trigger
backoff, contrary to the claim's "at least one success never backs off". -/
theorem backoff_trigger_iff :
    ∀ (st : GhState) (now : Nat) (dt : Nat → Nat) (queries : List (String × QueryOutcome))
      (capture : CaptureResult) (tb : TextboxState) (injectEnv : TmuxEnv),
    (∀ u, st.backoff_until = some u → u ≤ now) →
    ((((ghQueryPhase queries).2 ≠ [] ∧ (ghQueryPhase queries).1 = []) →
      (check_github_issues st now dt queries capture tb injectEnv).2.1.backoff_count
          = st.backoff_count + 1
      ∧ (check_github_issues st now dt queries capture tb injectEnv).2.1.backoff_until
          = some (now + min 1800 (30 * 2 ^ (st.backoff_count + 1))))
    ∧ (¬ ((ghQueryPhase queries).2 ≠ [] ∧ (ghQueryPhase queries).1 = []) →
      (check_github_issues st now dt queries capture tb injectEnv).2.1.backoff_count = 0
      ∧ (check_github_issues st now dt queries capture tb injectEnv).2.1.backoff_until
          = none)) := by
  intro st now dt queries capture tb injectEnv hgate
  obtain ⟨pi, bu, bc⟩ := st
  simp only [check_github_issues, ghBackoffGate_pass pi bu bc now hgate]
  constructor
  · intro hP
    obtain ⟨he, ha⟩ := hP
    have hcond : (!(ghQueryPhase queries).2.isEmpty && (ghQueryPhase queries).1.isEmpty)
        = true := by
      have h1 : (ghQueryPhase queries).2.isEmpty = false :=
        Bool.eq_false_iff.mpr (fun h => he (List.isEmpty_iff.mp h))
      have h2 : (ghQueryPhase queries).1.isEmpty = true := by
        rw [List.isEmpty_iff]; exact ha
      simp [h1, h2]
    simp only [ghTickMain, hcond, if_true]
    refine ⟨?_, ?_⟩ <;> trivial
  · intro hP
    have hcond : (!(ghQueryPhase queries).2.isEmpty && (ghQueryPhase queries).1.isEmpty)
        = false := by
      by_cases he : (ghQueryPhase queries).2 = []
      · have : (ghQueryPhase queries).2.isEmpty = true := by rw [List.isEmpty_iff]; exact he
        simp [this]
      · by_cases ha : (ghQueryPhase queries).1 = []
        · exact absurd ⟨he, ha⟩ hP
        · have : (ghQueryPhase queries).1.isEmpty = false :=
            Bool.eq_false_iff.mpr (fun h => ha (List.isEmpty_iff.mp h))
          simp [this]
    simp only [ghTickMain, hcond, Bool.false_eq_true, if_false]
    split
    · exact ⟨rfl, rfl⟩
    · split
      · exact ⟨rfl, rfl⟩
      · split
        · exact ⟨rfl, rfl⟩
        · exact ⟨ghDispatch_backoff_count _ _ _ _ _, ghDispatch_backoff_until _ _ _ _ _⟩

/-- C2 witness: a tick in which one label succeeds with an issue resets the
count to 0 and leaves no window, applied at a concrete input. -/
theorem backoff_trigger_iff_witness :
    (check_github_issues ⟨[], none, 3⟩ 0 (fun j => j)
        [("enkai:design", QueryOutcome.ok [⟨1, ["enkai:design"], "t1", "repoA"⟩])]
        CaptureResult.err tbNone envAllOk).2.1.backoff_count = 0
    ∧ (check_github_issues ⟨[], none, 3⟩ 0 (fun j => j)
        [("enkai:design", QueryOutcome.ok [⟨1, ["enkai:design"], "t1", "repoA"⟩])]
        CaptureResult.err tbNone envAllOk).2.1.backoff_until = none :=
  (backoff_trigger_iff ⟨[], none, 3⟩ 0 (fun j => j)
      [("enkai:design", QueryOutcome.ok [⟨1, ["enkai:design"], "t1", "repoA"⟩])]
      CaptureResult.err tbNone envAllOk (fun u h => Option.noConfusion h)).2
    (by decide)

/-! C8: exponential backoff progression and window skipping. -/

theorem allFail_step (st : GhState) :
    (check_github_issues st (tickNow st) (fun j => j) allFailQueries CaptureResult.err
        tbNone envAllOk).2.1
      = ⟨st.processed_issues, some (tickNow st + min 1800 (30 * 2 ^ (st.backoff_count + 1))),
         st.backoff_count + 1⟩ := by
  obtain ⟨pi, bu, bc⟩ := st
  have hgate : ghBackoffGate ⟨pi, bu, bc⟩ (tickNow ⟨pi, bu, bc⟩) = (none, ⟨pi, none, bc⟩) := by
    apply ghBackoffGate_pass
    intro u hu
    simp [tickNow, hu]
  have hq : ghQueryPhase allFailQueries
      = ([], ["enkai:research: timed out", "enkai:design: timed out", "enkai:plan: timed out",
              "enkai:build: timed out"]) := by decide
  simp only [check_github_issues, hgate, ghTickMain, hq]
  simp

/-- C8: after N consecutive cycles in which every label query fails (each fired
as its predecessor's window expires, starting from a reset count), the failure
count is N and the window set by the Nth cycle is `min 1800 (30 * 2^N)` seconds
from that cycle's `now`; and a tick that starts strictly inside a backoff
window performs no action at all (in particular no tracker query) and returns
the skipped backing-off result with the remaining seconds, leaving the state
untouched. -/
theorem backoff_progression_and_skip :
    (∀ (processed : ProcessedMap) (n : Nat),
      (runAllFail ⟨processed, none, 0⟩ (n + 1)).backoff_count = n + 1
      ∧ (runAllFail ⟨processed, none, 0⟩ (n + 1)).backoff_until
          = some (tickNow (runAllFail ⟨processed, none, 0⟩ n) + min 1800 (30 * 2 ^ (n + 1))))
    ∧ (∀ (st : GhState) (u nowT : Nat) (dt : Nat → Nat)
        (queries : List (String × QueryOutcome)) (capture : CaptureResult)
        (tb : TextboxState) (injectEnv : TmuxEnv),
        st.backoff_until = some u → nowT < u →
        check_github_issues st nowT dt queries capture tb injectEnv
          = ({ sent := false, skipped := true,
               reason := some ("Backing off (" ++ natToString (u - nowT) ++ "s remaining)"),
               backoff := true }, st, [])) := by
  constructor
  · intro processed n
    induction n with
    | zero =>
      constructor
      · show (check_github_issues (runAllFail ⟨processed, none, 0⟩ 0)
            (tickNow (runAllFail ⟨processed, none, 0⟩ 0)) (fun j => j) allFailQueries
            CaptureResult.err tbNone envAllOk).2.1.backoff_count = 0 + 1
        rw [allFail_step]
        rfl
      · show (check_github_issues (runAllFail ⟨processed, none, 0⟩ 0)
            (tickNow (runAllFail ⟨processed, none, 0⟩ 0)) (fun j => j) allFailQueries
            CaptureResult.err tbNone envAllOk).2.1.backoff_until
          = some (tickNow (runAllFail ⟨processed, none, 0⟩ 0) + min 1800 (30 * 2 ^ (0 + 1)))
        rw [allFail_step]
        rfl
    | succ k ih =>
      obtain ⟨ihc, _⟩ := ih
      constructor
      · show (check_github_issues (runAllFail ⟨processed, none, 0⟩ (k + 1))
            (tickNow (runAllFail ⟨processed, none, 0⟩ (k + 1))) (fun j => j) allFailQueries
            CaptureResult.err tbNone envAllOk).2.1.backoff_count = k + 1 + 1
        rw [allFail_step, ihc]
      · show (check_github_issues (runAllFail ⟨processed, none, 0⟩ (k + 1))
            (tickNow (runAllFail ⟨processed, none, 0⟩ (k + 1))) (fun j => j) allFailQueries
            CaptureResult.err tbNone envAllOk).2.1.backoff_until
          = some (tickNow (runAllFail ⟨processed, none, 0⟩ (k + 1))
              + min 1800 (30 * 2 ^ (k + 1 + 1)))
        rw [allFail_step, ihc]
  · intro st u nowT dt queries capture tb injectEnv h1 h2
    simp [check_github_issues, ghBackoffGate, h1, h2]

/-- C8 witness: three all-failure cycles reach count 3, and a tick two seconds
before a concrete window expiry is skipped without state change. -/
theorem backoff_progression_and_skip_witness :
    (runAllFail ⟨[], none, 0⟩ 3).backoff_count = 3
    ∧ check_github_issues ⟨[], some 5, 0⟩ 3 (fun j => j) [] CaptureResult.err tbNone envAllOk
        = ({ sent := false, skipped := true,
             reason := some ("Backing off (" ++ natToString 2 ++ "s remaining)"),
             backoff := true }, ⟨[], some 5, 0⟩, []) :=
  ⟨(backoff_progression_and_skip.1 [] 2).1,
   backoff_progression_and_skip.2 ⟨[], some 5, 0⟩ 5 3 (fun j => j) [] CaptureResult.err
     tbNone envAllOk rfl (by decide)⟩

/-! C7: readiness gating. -/

theorem ghTickMain_cases (st : GhState) (now : Nat) (dt : Nat → Nat)
    (queries : List (String × QueryOutcome)) (capture : CaptureResult) (tb : TextboxState)
    (injectEnv : TmuxEnv) :
    (ghTickMain st now dt queries capture tb injectEnv).2.2
        = queries.map (fun q => GhAction.query q.1)
    ∨ ((ghTickMain st now dt queries capture tb injectEnv).2.2
          = queries.map (fun q => GhAction.query q.1) ++ [GhAction.readReadiness]
        ∧ (ghTickMain st now dt queries capture tb injectEnv).1.skipped = true
        ∧ ((ghTickMain st now dt queries capture tb injectEnv).1.reason
              = some "Claude is busy"
            ∨ (ghTickMain st now dt queries capture tb injectEnv).1.reason
              = some "Prompt textbox has text")
        ∧ (ghTickMain st now dt queries capture tb injectEnv).2.1.processed_issues
            = st.processed_issues
        ∧ ((get_claude_state capture tb now).idle = false
            ∨ (get_claude_state capture tb now).prompt_empty = false))
    ∨ ((get_claude_state capture tb now).idle = true
        ∧ (get_claude_state capture tb now).prompt_empty = true
        ∧ ∃ tail, (ghTickMain st now dt queries capture tb injectEnv).2.2
            = queries.map (fun q => GhAction.query q.1) ++ GhAction.readReadiness :: tail) := by
  simp only [ghTickMain]
  split
  · exact Or.inl rfl
  · split
    · exact Or.inl rfl
    · split
      · next h =>
        refine Or.inr (Or.inl ⟨rfl, rfl, Or.inl rfl, rfl, Or.inl ?_⟩)
        simpa using h
      · split
        · next h =>
          refine Or.inr (Or.inl ⟨rfl, rfl, Or.inr rfl, rfl, Or.inr ?_⟩)
          simpa using h
        · next h1 h2 =>
          refine Or.inr (Or.inr ⟨?_, ?_, ⟨_, rfl⟩⟩)
          · simpa using h1
          · simpa using h2

/-- C7: neither poller's tick trace contains an injector call unless the
readiness snapshot computed at that tick's gate check has `idle = true` and the
textbox empty (no pending input); and whenever the issue-queue tick evaluated
readiness and the gate failed, the tick returns a skipped result with the busy
or pending-text reason, leaves the processed set unchanged and performs no
injector call. -/
theorem readiness_gating :
    ∀ (creds : Option Creds) (capture : CaptureResult) (tb : TextboxState) (now : Nat)
      (injectEnv : TmuxEnv) (st : GhState) (dt : Nat → Nat)
      (queries : List (String × QueryOutcome)),
    (∀ a ∈ (run_pnyx_tick creds capture tb now injectEnv).2, a = PnyxAction.inject →
      (get_claude_state capture tb now).idle = true
      ∧ (get_claude_state capture tb now).prompt_empty = true)
    ∧ (∀ a ∈ (check_github_issues st now dt queries capture tb injectEnv).2.2,
        ghIsInject a = true →
        (get_claude_state capture tb now).idle = true
        ∧ (get_claude_state capture tb now).prompt_empty = true)
    ∧ (GhAction.readReadiness ∈ (check_github_issues st now dt queries capture tb injectEnv).2.2 →
        ((get_claude_state capture tb now).idle = false
          ∨ (get_claude_state capture tb now).prompt_empty = false) →
        ((check_github_issues st now dt queries capture tb injectEnv).1.skipped = true
        ∧ ((check_github_issues st now dt queries capture tb injectEnv).1.reason
              = some "Claude is busy"
            ∨ (check_github_issues st now dt queries capture tb injectEnv).1.reason
              = some "Prompt textbox has text")
        ∧ (check_github_issues st now dt queries capture tb injectEnv).2.1.processed_issues
            = st.processed_issues
        ∧ ∀ a ∈ (check_github_issues st now dt queries capture tb injectEnv).2.2,
            ghIsInject a = false)) := by
  intro creds capture tb now injectEnv st dt queries
  refine ⟨?_, ?_, ?_⟩
  · cases creds with
    | none =>
      intro a ha _
      simp [run_pnyx_tick] at ha
    | some c =>
      intro a ha hinj
      by_cases hi : (get_claude_state capture tb now).idle
      · by_cases hp : (get_claude_state capture tb now).prompt_empty
        · exact ⟨hi, hp⟩
        · simp only [run_pnyx_tick, hi, hp] at ha
          simp at ha
          subst ha
          simp at hinj
      · simp only [run_pnyx_tick, hi] at ha
        simp at ha
        subst ha
        simp at hinj
  · intro a ha hinj
    rcases hg : ghBackoffGate st now with ⟨og, st2⟩
    cases og with
    | some r =>
      simp only [check_github_issues, hg] at ha
      simp at ha
    | none =>
      simp only [check_github_issues, hg] at ha
      rcases ghTickMain_cases st2 now dt queries capture tb injectEnv with hc | hc | hc
      · rw [hc] at ha
        exact absurd (mem_qActs_not_inject queries a ha) (by simp [hinj])
      · rw [hc.1] at ha
        rcases List.mem_append.mp ha with h | h
        · exact absurd (mem_qActs_not_inject queries a h) (by simp [hinj])
        · simp at h
          subst h
          simp [ghIsInject] at hinj
      · exact ⟨hc.1, hc.2.1⟩
  · intro hr hfail
    rcases hg : ghBackoffGate st now with ⟨og, st2⟩
    have hst2 : st2.processed_issues = st.processed_issues := by
      have := ghBackoffGate_processed st now
      rw [hg] at this
      exact this
    cases og with
    | some r =>
      simp only [check_github_issues, hg] at hr
      simp at hr
    | none =>
      simp only [check_github_issues, hg] at hr ⊢
      rcases ghTickMain_cases st2 now dt queries capture tb injectEnv with hc | hc | hc
      · rw [hc] at hr
        exact absurd hr (readReadiness_not_mem_qActs queries)
      · obtain ⟨hact, hskip, hreason, hproc, _⟩ := hc
        refine ⟨hskip, hreason, hproc.trans hst2, ?_⟩
        intro a ha
        rw [hact] at ha
        rcases List.mem_append.mp ha with h | h
        · exact mem_qActs_not_inject queries a h
        · simp at h
          subst h
          rfl
      · rcases hfail with h | h
        · rw [hc.1] at h
          simp at h
        · rw [hc.2.1] at h
          simp at h

/-- C7 witness: a tick with a new issue but a busy session skips with the busy
reason and marks nothing. -/
theorem readiness_gating_witness :
    (check_github_issues ⟨[], none, 0⟩ 0 (fun j => j)
        [("enkai:design", QueryOutcome.ok [⟨1, ["enkai:design"], "t1", "repoA"⟩])]
        CaptureResult.err tbNone envAllOk).1.skipped = true
    ∧ (check_github_issues ⟨[], none, 0⟩ 0 (fun j => j)
        [("enkai:design", QueryOutcome.ok [⟨1, ["enkai:design"], "t1", "repoA"⟩])]
        CaptureResult.err tbNone envAllOk).2.1.processed_issues = [] :=
  have h := (readiness_gating none CaptureResult.err tbNone 0 envAllOk ⟨[], none, 0⟩
    (fun j => j)
    [("enkai:design", QueryOutcome.ok [⟨1, ["enkai:design"], "t1", "repoA"⟩])]).2.2
    (by decide) (Or.inl (by decide))
  ⟨h.1, h.2.2.1⟩

/-! C4: batch priority and batch marking. -/

theorem pmLookup_markBuildAux_notmem :
    ∀ (is : List Issue) (m : ProcessedMap) (dt : Nat → Nat) (j : Nat) (k : String),
    k ∉ is.map issueKey → pmLookup (markBuildAux m dt j is) k = pmLookup m k := by
  intro is
  induction is with
  | nil => intro m dt j k _; rfl
  | cons i rest ih =>
    intro m dt j k h
    rw [List.map_cons, List.mem_cons, not_or] at h
    obtain ⟨h1, h2⟩ := h
    rw [markBuildAux, ih _ dt (j + 1) k h2, pmLookup_dictInsert]
    have h3 : ¬ issueKey i = k := fun he => h1 he.symm
    simp [h3]

theorem markBuild_lookup :
    ∀ (is : List Issue) (m : ProcessedMap) (dt : Nat → Nat) (j0 : Nat),
    (is.map issueKey).Nodup →
    ∀ (j : Nat) (hj : j < is.length),
    pmLookup (markBuildAux m dt j0 is) (issueKey (is.get ⟨j, hj⟩))
      = some ⟨dt (j0 + j), some (is.get ⟨j, hj⟩).updatedAt⟩ := by
  intro is
  induction is with
  | nil => intro m dt j0 _ j hj; exact absurd hj (Nat.not_lt_zero j)
  | cons i rest ih =>
    intro m dt j0 hnd j hj
    rw [List.map_cons, List.nodup_cons] at hnd
    obtain ⟨hni, hndr⟩ := hnd
    cases j with
    | zero =>
      show pmLookup (markBuildAux m dt j0 (i :: rest)) (issueKey i)
          = some ⟨dt (j0 + 0), some i.updatedAt⟩
      rw [markBuildAux,
        pmLookup_markBuildAux_notmem rest _ dt (j0 + 1) (issueKey i) hni,
        pmLookup_dictInsert]
      simp
    | succ j' =>
      have hj' : j' < rest.length := Nat.lt_of_succ_lt_succ hj
      have h := ih (dictInsert m (issueKey i) ⟨dt j0, some i.updatedAt⟩) dt (j0 + 1) hndr j' hj'
      show pmLookup (markBuildAux (dictInsert m (issueKey i) ⟨dt j0, some i.updatedAt⟩) dt
          (j0 + 1) rest) (issueKey (rest.get ⟨j', hj'⟩))
        = some ⟨dt (j0 + (j' + 1)), some (rest.get ⟨j', hj'⟩).updatedAt⟩
      rw [show j0 + (j' + 1) = j0 + 1 + j' from by omega]
      exact h

/-- C4 counterexample: two build issues presented in one ready tick are both
marked in that tick, but each marking reads the clock again (the source calls
`datetime.now()` inside the loop), so with a clock that advances between reads
the two stored `processed_at` values differ — the claim's "same processed_at"
fails. -/
theorem batch_processed_at_cex :
    (pmLookup (check_github_issues ⟨[], none, 0⟩ 0 (fun j => j)
        [("enkai:build", QueryOutcome.ok [⟨1, ["enkai:build"], "t1", "repoA"⟩,
          ⟨2, ["enkai:build"], "t1", "repoA"⟩])]
        (CaptureResult.run 0 (String.mk [idleGlyph])) tbNone envAllOk).2.1.processed_issues
        "repoA#1").map (fun r => r.processed_at) = some 0
    ∧ (pmLookup (check_github_issues ⟨[], none, 0⟩ 0 (fun j => j)
        [("enkai:build", QueryOutcome.ok [⟨1, ["enkai:build"], "t1", "repoA"⟩,
          ⟨2, ["enkai:build"], "t1", "repoA"⟩])]
        (CaptureResult.run 0 (String.mk [idleGlyph])) tbNone envAllOk).2.1.processed_issues
        "repoA#2").map (fun r => r.processed_at) = some 1
    ∧ (0 : Nat) ≠ 1 := by
  refine ⟨by decide, by decide, by decide⟩

/-- C4 amended: in a ready tick whose new items include at least one build
item, the action trace ends with exactly one injector call, the fixed batch
command `/scrum` (so no single-item dispatch occurs); on successful dispatch
every build item is marked processed in that same update, each with its own
`updatedAt` and with a `processed_at` taken from a fresh clock read per item
(the j-th marked item stores the j-th read, so the values coincide only when
the clock readings do — they are not guaranteed equal). -/
theorem batch_priority_and_marking :
    ∀ (st : GhState) (now : Nat) (dt : Nat → Nat) (queries : List (String × QueryOutcome))
      (capture : CaptureResult) (tb : TextboxState) (injectEnv : TmuxEnv),
    (∀ u, st.backoff_until = some u → u ≤ now) →
    (filterNewIssues st.processed_issues
        ((ghQueryPhase queries).1.map (fun p => p.2))).filter
          (fun i => issueTaskType i == some "build") ≠ [] →
    (get_claude_state capture tb now).idle = true →
    (get_claude_state capture tb now).prompt_empty = true →
    ((check_github_issues st now dt queries capture tb injectEnv).2.2
        = queries.map (fun q => GhAction.query q.1)
          ++ [GhAction.readReadiness, GhAction.injectBatch "/scrum"]
    ∧ ((send_to_tmux injectEnv true).success = true →
        (check_github_issues st now dt queries capture tb injectEnv).2.1.processed_issues
          = markBuildProcessed st.processed_issues dt
              ((filterNewIssues st.processed_issues
                  ((ghQueryPhase queries).1.map (fun p => p.2))).filter
                (fun i => issueTaskType i == some "build")))
    ∧ (∀ (m : ProcessedMap) (f : Nat → Nat) (is : List Issue),
        (is.map issueKey).Nodup →
        ∀ (j : Nat) (hj : j < is.length),
          pmLookup (markBuildProcessed m f is) (issueKey (is.get ⟨j, hj⟩))
            = some ⟨f j, some (is.get ⟨j, hj⟩).updatedAt⟩)) := by
  intro st now dt queries capture tb injectEnv hgate hb hidle hpe
  obtain ⟨pi, bu, bc⟩ := st
  simp only [check_github_issues, ghBackoffGate_pass pi bu bc now hgate]
  have hNewNe : filterNewIssues pi ((ghQueryPhase queries).1.map (fun p => p.2)) ≠ [] := by
    intro h0
    apply hb
    rw [h0]
    rfl
  have hAllNe : (ghQueryPhase queries).1 ≠ [] := by
    intro h0
    apply hNewNe
    rw [h0]
    rfl
  have hcond : (!(ghQueryPhase queries).2.isEmpty && (ghQueryPhase queries).1.isEmpty)
      = false := by
    have h1 : (ghQueryPhase queries).1.isEmpty = false :=
      Bool.eq_false_iff.mpr (fun h => hAllNe (List.isEmpty_iff.mp h))
    simp [h1]
  have hNew : (filterNewIssues pi ((ghQueryPhase queries).1.map (fun p => p.2))).isEmpty
      = false :=
    Bool.eq_false_iff.mpr (fun h => hNewNe (List.isEmpty_iff.mp h))
  have hbuild : ((filterNewIssues pi ((ghQueryPhase queries).1.map (fun p => p.2))).filter
      (fun i => issueTaskType i == some "build")).isEmpty = false :=
    Bool.eq_false_iff.mpr (fun h => hb (List.isEmpty_iff.mp h))
  simp only [ghTickMain, hcond, Bool.false_eq_true, if_false, hNew, hidle, hpe,
    Bool.not_true, ghDispatch, hbuild, Bool.not_false, if_true, if_false]
  refine ⟨by trivial, ?_, ?_⟩
  · intro hsucc
    simp [hsucc]
  · intro m f is hnd j hj
    simpa [markBuildProcessed] using markBuild_lookup is m f 0 hnd j hj

/-- C4 witness: the concrete two-build-issue ready tick dispatches exactly one
`/scrum` injection. -/
theorem batch_priority_and_marking_witness :
    (check_github_issues ⟨[], none, 0⟩ 0 (fun j => j)
        [("enkai:build", QueryOutcome.ok [⟨1, ["enkai:build"], "t1", "repoA"⟩,
          ⟨2, ["enkai:build"], "t1", "repoA"⟩])]
        (CaptureResult.run 0 (String.mk [idleGlyph])) tbNone envAllOk).2.2
      = [("enkai:build", QueryOutcome.ok [⟨1, ["enkai:build"], "t1", "repoA"⟩,
          ⟨2, ["enkai:build"], "t1", "repoA"⟩])].map (fun q => GhAction.query q.1)
        ++ [GhAction.readReadiness, GhAction.injectBatch "/scrum"] :=
  (batch_priority_and_marking ⟨[], none, 0⟩ 0 (fun j => j)
      [("enkai:build", QueryOutcome.ok [⟨1, ["enkai:build"], "t1", "repoA"⟩,
        ⟨2, ["enkai:build"], "t1", "repoA"⟩])]
      (CaptureResult.run 0 (String.mk [idleGlyph])) tbNone envAllOk
      (fun u h => Option.noConfusion h) (by decide) (by decide) (by decide)).1

end StatusServer
